import Mathlib

/-!
Verification development for the MySQL-to-Redis migration demo
(`modules/redis_migration.py`, `modules/redis_queries.py`).

The Redis store is modelled as four finite-map components (hashes, plain
strings, lists, sets), one per Redis value type used by the program; an
absent hash key is the empty field list, matching the semantics of
`HGETALL` on a missing key.  Row values coming from MySQL are modelled with
the fixed schemas the program reads (`id`, `name`, `email`, `created_at`,
...); `datetime` columns are modelled by the string that Python's `str`
produces for them, since the program only ever uses `str(value)`.
Python's f-string rendering of a nonnegative integer id is modelled by
`natStr`, decimal rendering with digits '0'..'9'.
-/

/-- Decimal digit character for a digit value, as produced by decimal
integer formatting. -/
def digitChar (d : Nat) : Char :=
  match d with
  | 0 => '0' | 1 => '1' | 2 => '2' | 3 => '3' | 4 => '4'
  | 5 => '5' | 6 => '6' | 7 => '7' | 8 => '8' | 9 => '9'
  | _ => '*'

/-- Fuel-driven big-endian decimal digit expansion of a natural number. -/
def decAux : Nat → Nat → List Char
  | 0, _ => []
  | fuel + 1, n =>
    if n < 10 then [digitChar n] else decAux fuel (n / 10) ++ [digitChar (n % 10)]

/-- Big-endian decimal digits of `n` (with enough fuel to terminate). -/
def decDigits (n : Nat) : List Char := decAux (n + 1) n

/-- Decimal rendering of a nonnegative integer, as Python's f-string
formatting (`f"{n}"`) and `str(n)` produce it. -/
def natStr (n : Nat) : String := ⟨decDigits n⟩

/-- Value of a digit string, used to invert `decDigits`. -/
def decVal (l : List Char) : Nat := l.foldl (fun a c => 10 * a + (c.toNat - 48)) 0

theorem decVal_decAux (f : Nat) : ∀ n, n < 10 ^ f → decVal (decAux f n) = n := by
  induction f with
  | zero => intro n h; interval_cases n; rfl
  | succ f ih =>
    intro n h
    by_cases h10 : n < 10
    · have he : decAux (f + 1) n = [digitChar n] := by simp [decAux, h10]
      rw [he]
      interval_cases n <;> rfl
    · have hrec : n / 10 < 10 ^ f := by
        rw [Nat.div_lt_iff_lt_mul (by omega)]
        calc n < 10 ^ (f + 1) := h
        _ = 10 ^ f * 10 := by ring
      have he : decAux (f + 1) n = decAux f (n / 10) ++ [digitChar (n % 10)] := by
        simp [decAux, h10]
      rw [he]
      have hfold : decVal (decAux f (n / 10) ++ [digitChar (n % 10)]) =
          10 * decVal (decAux f (n / 10)) + ((digitChar (n % 10)).toNat - 48) := by
        simp [decVal, List.foldl_append]
      rw [hfold, ih _ hrec]
      have hm : n % 10 < 10 := Nat.mod_lt _ (by omega)
      have hd : (digitChar (n % 10)).toNat - 48 = n % 10 := by
        interval_cases h : (n % 10) <;> rfl
      rw [hd]
      omega

theorem lt_ten_pow (n : Nat) : n < 10 ^ (n + 1) :=
  lt_of_lt_of_le (Nat.lt_two_pow n) (le_trans (Nat.pow_le_pow_left (by omega) n)
    (Nat.pow_le_pow_right (by omega) (by omega)))

theorem decVal_decDigits (n : Nat) : decVal (decDigits n) = n :=
  decVal_decAux (n + 1) n (lt_ten_pow n)

theorem decDigits_injective : Function.Injective decDigits := by
  intro a b h
  have hv := congrArg decVal h
  rwa [decVal_decDigits, decVal_decDigits] at hv

theorem natStr_injective : Function.Injective natStr := by
  intro a b h
  exact decDigits_injective (congrArg String.data h)

theorem string_data_inj {s t : String} (h : s.data = t.data) : s = t :=
  congrArg String.mk h

theorem string_append_left_cancel {p s t : String} (h : p ++ s = p ++ t) : s = t := by
  apply string_data_inj
  have hd : p.data ++ s.data = p.data ++ t.data := congrArg String.data h
  exact List.append_cancel_left hd

/-- Two strings whose character lists start with different characters are
distinct. -/
theorem string_ne_of_head {c d : Char} (hcd : c ≠ d) {l m : List Char} {s t : String}
    (hs : s.data = c :: l) (ht : t.data = d :: m) : s ≠ t := by
  intro h
  apply hcd
  have := hs ▸ ht ▸ congrArg String.data h
  exact (List.cons.injEq _ _ _ _ ▸ this).1

/-! ## The CRC16 library

The program computes hash slots with `crc16.crc16xmodem(key.encode('utf-8'))`,
the CRC-16/XMODEM checksum (polynomial 0x1021, initial value 0, no
reflection, no final xor) of the key's UTF-8 bytes.  `crcShift` is one
polynomial-division step on a 16-bit register; `crcByte` folds one input
byte into the register. -/

/-- One CRC shift step: shift left by one bit, xor with the polynomial
0x1021 when the top bit was set, keep 16 bits. -/
def crcShift (c : Nat) : Nat :=
  if 32768 ≤ c % 65536 then ((c % 65536) * 2 ^^^ 4129) % 65536
  else ((c % 65536) * 2) % 65536

/-- Iterate `crcShift`. -/
def crcRounds : Nat → Nat → Nat
  | 0, c => c
  | n + 1, c => crcRounds n (crcShift c)

/-- Fold one byte into the CRC register: xor the byte into the high half,
then run eight shift steps. -/
def crcByte (c b : Nat) : Nat := crcRounds 8 (c ^^^ (b % 256) * 256)

/-- CRC-16/XMODEM of a byte sequence, as `crc16.crc16xmodem` computes it
with the default initial value 0. -/
def crc16xmodem (bytes : List Nat) : Nat := bytes.foldl crcByte 0

/-- UTF-8 encoding of a string as a list of byte values, modelling
`key.encode('utf-8')`. -/
def utf8Bytes (s : String) : List Nat := s.toUTF8.data.toList.map (fun b => b.toNat)

/-! ## Relational rows and the migration snapshot -/

/-- One row of the MySQL `users` table as the migration reads it. -/
structure User where
  id : Nat
  name : String
  email : String
  created_at : String
deriving DecidableEq, Repr

/-- One row of the MySQL `hotels` table. -/
structure Hotel where
  id : Nat
  name : String
  city : String
  created_at : String
deriving DecidableEq, Repr

/-- One row of the MySQL `bookings` table. -/
structure Booking where
  id : Nat
  user_id : Nat
  hotel_id : Nat
  date : String
  created_at : String
deriving DecidableEq, Repr

/-- The `mysql_data` dictionary passed to `migrate_data`: the full snapshot
of the three tables. -/
structure MySQLData where
  users : List User
  hotels : List Hotel
  bookings : List Booking
deriving DecidableEq, Repr

/-! ## The Redis store -/

/-- The destination Redis store, split by the four Redis value types the
program uses.  `hashes` maps a key to its field list (`HGETALL` view, empty
when the key is absent), `strings` to an optional plain string value
(`GET`/`SET`), `lists` to a Redis list (head = leftmost element), and
`sets` to the members of a Redis set. -/
structure Store where
  hashes : String → List (String × String)
  strings : String → Option String
  lists : String → List String
  sets : String → List String

/-- The empty destination store. -/
def Store.empty : Store :=
  { hashes := fun _ => []
    strings := fun _ => none
    lists := fun _ => []
    sets := fun _ => [] }

/-- Set one field of a hash, replacing an existing field of the same name
and otherwise appending. -/
def setField : List (String × String) → String → String → List (String × String)
  | [], f, v => [(f, v)]
  | (g, w) :: rest, f, v =>
    if g = f then (f, v) :: rest else (g, w) :: setField rest f v

/-- Set all fields of a mapping on a hash, in mapping order (`HSET` with a
field mapping). -/
def setFields (m : List (String × String)) (mapping : List (String × String)) :
    List (String × String) :=
  mapping.foldl (fun acc fv => setField acc fv.1 fv.2) m

/-- `HSET key mapping`. -/
def Store.hset (st : Store) (k : String) (mapping : List (String × String)) : Store :=
  { st with hashes := fun q => if q = k then setFields (st.hashes k) mapping else st.hashes q }

/-- `SADD key v`: add a member to a set if not already present. -/
def Store.sadd (st : Store) (k v : String) : Store :=
  { st with sets := fun q =>
      if q = k then (if v ∈ st.sets k then st.sets k else st.sets k ++ [v]) else st.sets q }

/-- `SET key v` on a plain string key. -/
def Store.set (st : Store) (k v : String) : Store :=
  { st with strings := fun q => if q = k then some v else st.strings q }

/-- `LPUSH key v`: prepend to a list. -/
def Store.lpush (st : Store) (k v : String) : Store :=
  { st with lists := fun q => if q = k then v :: st.lists k else st.lists q }

/-! ## Key construction (the f-strings of the two modules) -/

/-- Key `f"user:{user_id}"`. -/
def userKey (id : Nat) : String := "user:" ++ natStr id

/-- Key `f"hotel:{hotel_id}"`. -/
def hotelKey (id : Nat) : String := "hotel:" ++ natStr id

/-- Key `f"booking:{booking_id}"`. -/
def bookingKey (id : Nat) : String := "booking:" ++ natStr id

/-- Key `f"user:{user_id}:bookings"`. -/
def userBookingsKey (id : Nat) : String := "user:" ++ natStr id ++ ":bookings"

/-- Key `f"user:email:{email}"`. -/
def emailKey (email : String) : String := "user:email:" ++ email

/-- Key `f"hotels:city:{city}"`. -/
def cityKey (city : String) : String := "hotels:city:" ++ city

/-- Key `f"bookings:date:{date}"`. -/
def dateKey (date : String) : String := "bookings:date:" ++ date

theorem userKey_inj {a b : Nat} (h : userKey a = userKey b) : a = b :=
  natStr_injective (string_append_left_cancel h)

theorem hotelKey_inj {a b : Nat} (h : hotelKey a = hotelKey b) : a = b :=
  natStr_injective (string_append_left_cancel h)

theorem bookingKey_inj {a b : Nat} (h : bookingKey a = bookingKey b) : a = b :=
  natStr_injective (string_append_left_cancel h)

theorem userBookingsKey_inj {a b : Nat} (h : userBookingsKey a = userBookingsKey b) :
    a = b := by
  have h1 : natStr a ++ ":bookings" = natStr b ++ ":bookings" :=
    string_append_left_cancel (p := "user:") h
  have h2 : (natStr a).data ++ (":bookings" : String).data =
      (natStr b).data ++ (":bookings" : String).data := congrArg String.data h1
  exact natStr_injective (string_data_inj (List.append_cancel_right h2))

theorem userKey_ne_hotelKey (a b : Nat) : userKey a ≠ hotelKey b :=
  string_ne_of_head (by decide) rfl rfl

theorem userKey_ne_bookingKey (a b : Nat) : userKey a ≠ bookingKey b :=
  string_ne_of_head (by decide) rfl rfl

theorem hotelKey_ne_bookingKey (a b : Nat) : hotelKey a ≠ bookingKey b :=
  string_ne_of_head (by decide) rfl rfl

/-! ## `RedisMigration` (modules/redis_migration.py)

Print statements of the module are not modelled; the slot/node reporting
they perform is modelled by the standalone `get_hash_slot` and
`get_cluster_node` functions.  `migrate_data` executes a sequence of Redis
write commands inside one `try` block and returns `None` as soon as the
connection is absent or any command raises; the possibility that the n-th
issued command raises irrecoverably is modelled by the `failAt` schedule
(`none` = every command succeeds). -/

namespace RedisMigration

/-- `get_hash_slot`: CRC16-XMODEM of the key's UTF-8 bytes, modulo 16384. -/
def get_hash_slot (key : String) : Nat := crc16xmodem (utf8Bytes key) % 16384

/-- `get_cluster_node`: static 3-node slot ownership table. -/
def get_cluster_node (slot : Int) : Nat :=
  if slot ≤ 5460 then 1
  else if slot ≤ 10922 then 2
  else 3

/-- The hash fields written for one user (`user_data` in the source);
`str` is applied to `id` and `created_at`. -/
def userFields (u : User) : List (String × String) :=
  [("id", natStr u.id), ("name", u.name), ("email", u.email), ("created_at", u.created_at)]

/-- The hash fields written for one hotel (`hotel_data`). -/
def hotelFields (h : Hotel) : List (String × String) :=
  [("id", natStr h.id), ("name", h.name), ("city", h.city), ("created_at", h.created_at)]

/-- The hash fields written for one booking (`booking_data`). -/
def bookingFields (b : Booking) : List (String × String) :=
  [("id", natStr b.id), ("user_id", natStr b.user_id), ("hotel_id", natStr b.hotel_id),
   ("date", b.date), ("created_at", b.created_at)]

/-- The three writes of one iteration of the user migration loop:
`HSET user:{id}`, `SADD users:all`, `SET user:email:{email}`. -/
def userWrites (st : Store) (u : User) : Store :=
  ((st.hset (userKey u.id) (userFields u)).sadd "users:all" (natStr u.id)).set
    (emailKey u.email) (natStr u.id)

/-- The three writes of one iteration of the hotel migration loop:
`HSET hotel:{id}`, `SADD hotels:all`, `SADD hotels:city:{city}`. -/
def hotelWrites (st : Store) (h : Hotel) : Store :=
  ((st.hset (hotelKey h.id) (hotelFields h)).sadd "hotels:all" (natStr h.id)).sadd
    (cityKey h.city) (natStr h.id)

/-- The four writes of one iteration of the booking migration loop:
`HSET booking:{id}`, `LPUSH user:{user_id}:bookings`,
`SADD bookings:date:{date}`, `SADD bookings:all`. -/
def bookingWrites (st : Store) (b : Booking) : Store :=
  (((st.hset (bookingKey b.id) (bookingFields b)).lpush (userBookingsKey b.user_id)
      (natStr b.id)).sadd (dateKey b.date) (natStr b.id)).sadd "bookings:all" (natStr b.id)

/-- The user migration loop with every command succeeding. -/
def migrateUsersPure : List User → Store → Store
  | [], st => st
  | u :: rest, st => migrateUsersPure rest (userWrites st u)

/-- The hotel migration loop with every command succeeding. -/
def migrateHotelsPure : List Hotel → Store → Store
  | [], st => st
  | h :: rest, st => migrateHotelsPure rest (hotelWrites st h)

/-- The booking migration loop with every command succeeding. -/
def migrateBookingsPure : List Booking → Store → Store
  | [], st => st
  | b :: rest, st => migrateBookingsPure rest (bookingWrites st b)

/-- The store produced by a fully successful `migrate_data` run. -/
def migratePure (d : MySQLData) (st : Store) : Store :=
  migrateBookingsPure d.bookings (migrateHotelsPure d.hotels (migrateUsersPure d.users st))

/-- Run one Redis command: command number `i` raises (yielding `none`) when
the failure schedule names it, and otherwise performs its write. -/
def runCmd (failAt : Option Nat) (i : Nat) (f : Store → Store) (st : Store) : Option Store :=
  if failAt = some i then none else some (f st)

/-- The user migration loop, threading the command counter `i` and the
`stats['users']` counter `c`; `none` propagates a raised exception. -/
def migrateUsers (failAt : Option Nat) : List User → Nat → Nat → Store → Option (Store × Nat × Nat)
  | [], i, c, st => some (st, i, c)
  | u :: rest, i, c, st =>
    (runCmd failAt i (fun s => s.hset (userKey u.id) (userFields u)) st).bind fun st1 =>
    (runCmd failAt (i + 1) (fun s => s.sadd "users:all" (natStr u.id)) st1).bind fun st2 =>
    (runCmd failAt (i + 2) (fun s => s.set (emailKey u.email) (natStr u.id)) st2).bind fun st3 =>
    migrateUsers failAt rest (i + 3) (c + 1) st3

/-- The hotel migration loop, with stats counter `stats['hotels']`. -/
def migrateHotels (failAt : Option Nat) : List Hotel → Nat → Nat → Store → Option (Store × Nat × Nat)
  | [], i, c, st => some (st, i, c)
  | h :: rest, i, c, st =>
    (runCmd failAt i (fun s => s.hset (hotelKey h.id) (hotelFields h)) st).bind fun st1 =>
    (runCmd failAt (i + 1) (fun s => s.sadd "hotels:all" (natStr h.id)) st1).bind fun st2 =>
    (runCmd failAt (i + 2) (fun s => s.sadd (cityKey h.city) (natStr h.id)) st2).bind fun st3 =>
    migrateHotels failAt rest (i + 3) (c + 1) st3

/-- The booking migration loop, with stats counter `stats['bookings']`. -/
def migrateBookings (failAt : Option Nat) : List Booking → Nat → Nat → Store → Option (Store × Nat × Nat)
  | [], i, c, st => some (st, i, c)
  | b :: rest, i, c, st =>
    (runCmd failAt i (fun s => s.hset (bookingKey b.id) (bookingFields b)) st).bind fun st1 =>
    (runCmd failAt (i + 1) (fun s => s.lpush (userBookingsKey b.user_id) (natStr b.id)) st1).bind fun st2 =>
    (runCmd failAt (i + 2) (fun s => s.sadd (dateKey b.date) (natStr b.id)) st2).bind fun st3 =>
    (runCmd failAt (i + 3) (fun s => s.sadd "bookings:all" (natStr b.id)) st3).bind fun st4 =>
    migrateBookings failAt rest (i + 4) (c + 1) st4

/-- The statistics dictionary `migrate_data` returns on success. -/
structure MigrationStats where
  users : Nat
  hotels : Nat
  bookings : Nat
deriving DecidableEq, Repr

/-- `migrate_data`: returns `none` when there is no active connection or
when any issued command raises, and otherwise the final statistics together
with the destination store state. -/
def migrate_data (failAt : Option Nat) (conn : Option Store) (d : MySQLData) :
    Option (MigrationStats × Store) :=
  match conn with
  | none => none
  | some st =>
    (migrateUsers failAt d.users 0 0 st).bind fun r1 =>
    (migrateHotels failAt d.hotels r1.2.1 0 r1.1).bind fun r2 =>
    (migrateBookings failAt d.bookings r2.2.1 0 r2.1).bind fun r3 =>
    some (⟨r1.2.2, r2.2.2, r3.2.2⟩, r3.1)

/-- Total number of Redis commands a full migration run issues. -/
def totalCmds (d : MySQLData) : Nat :=
  3 * d.users.length + 3 * d.hotels.length + 4 * d.bookings.length

end RedisMigration

/-! ## `RedisQueries` (modules/redis_queries.py)

The query layer receives an already-established connection; reads are
modelled directly on the `Store`.  Python `dict.get` is modelled by
`List.lookup` (returning `none` for a missing field) and the truthiness
test `if not x` on a string from `GET` is `none` or the empty string. -/

namespace RedisQueries

/-- `get_hash_slot` of the query module: computed with the same shared
`crc16` library call as the migration module's. -/
def get_hash_slot (key : String) : Nat := crc16xmodem (utf8Bytes key) % 16384

/-- The `combined_info` dictionary built for one booking in
`get_user_booking_history`; each field is the result of a `dict.get`. -/
structure BookingInfo where
  booking_id : Option String
  date : Option String
  hotel_id : Option String
  hotel_name : Option String
  hotel_city : Option String
  created_at : Option String
deriving DecidableEq, Repr

/-- The hotel key `f"hotel:{hotel_id}"` built from
`booking_data.get('hotel_id')`: Python formats the value `None` as the text
`"None"` when the field is absent. -/
def hotelKeyOfId : Option String → String
  | some s => "hotel:" ++ s
  | none => "hotel:None"

/-- Build `combined_info` for one booking hash: fetch the referenced hotel
hash and combine the fields of both. -/
def combinedInfo (st : Store) (booking_data : List (String × String)) : BookingInfo :=
  let hotel_data := st.hashes (hotelKeyOfId (booking_data.lookup "hotel_id"))
  { booking_id := booking_data.lookup "id"
    date := booking_data.lookup "date"
    hotel_id := hotel_data.lookup "id"
    hotel_name := hotel_data.lookup "name"
    hotel_city := hotel_data.lookup "city"
    created_at := booking_data.lookup "created_at" }

/-- The booking loop of `get_user_booking_history`: a booking id whose hash
is empty (key absent) prints a warning and is skipped (`continue`). -/
def historyLoop (st : Store) : List String → List BookingInfo
  | [] => []
  | bid :: rest =>
    let booking_data := st.hashes ("booking:" ++ bid)
    if booking_data = [] then historyLoop st rest
    else combinedInfo st booking_data :: historyLoop st rest

/-- `get_user_booking_history`: returns `[]` when there is no connection,
when the user hash is empty (user not found, only reported by a printed
message), or when the relationship list is empty; otherwise the combined
infos of the listed bookings that exist. -/
def get_user_booking_history (conn : Option Store) (user_id : Nat) : List BookingInfo :=
  match conn with
  | none => []
  | some st =>
    let user_data := st.hashes (userKey user_id)
    if user_data = [] then []
    else
      let booking_ids := st.lists (userBookingsKey user_id)
      if booking_ids = [] then []
      else historyLoop st booking_ids

/-- `get_user_by_email`: `GET user:email:{email}`, then `None` when the
result is falsy (absent key or empty string), else the `HGETALL` of
`user:{user_id}` with the fetched id interpolated into the key. -/
def get_user_by_email (st : Store) (email : String) : Option (List (String × String)) :=
  match st.strings (emailKey email) with
  | none => none
  | some user_id => if user_id = "" then none else some (st.hashes ("user:" ++ user_id))

end RedisQueries

namespace RedisMigration

theorem userWrites_hashes (st : Store) (u : User) (q : String) :
    (userWrites st u).hashes q =
      if q = userKey u.id then setFields (st.hashes (userKey u.id)) (userFields u)
      else st.hashes q := rfl

theorem hotelWrites_hashes (st : Store) (h : Hotel) (q : String) :
    (hotelWrites st h).hashes q =
      if q = hotelKey h.id then setFields (st.hashes (hotelKey h.id)) (hotelFields h)
      else st.hashes q := rfl

theorem bookingWrites_hashes (st : Store) (b : Booking) (q : String) :
    (bookingWrites st b).hashes q =
      if q = bookingKey b.id then setFields (st.hashes (bookingKey b.id)) (bookingFields b)
      else st.hashes q := rfl

theorem userWrites_lists (st : Store) (u : User) : (userWrites st u).lists = st.lists := rfl

theorem hotelWrites_lists (st : Store) (h : Hotel) : (hotelWrites st h).lists = st.lists := rfl

theorem bookingWrites_lists (st : Store) (b : Booking) (q : String) :
    (bookingWrites st b).lists q =
      if q = userBookingsKey b.user_id then natStr b.id :: st.lists (userBookingsKey b.user_id)
      else st.lists q := rfl

theorem migrateUsersPure_lists (us : List User) (st : Store) :
    (migrateUsersPure us st).lists = st.lists := by
  induction us generalizing st with
  | nil => rfl
  | cons u rest ih => simpa [migrateUsersPure, userWrites_lists] using ih (userWrites st u)

theorem migrateHotelsPure_lists (hs : List Hotel) (st : Store) :
    (migrateHotelsPure hs st).lists = st.lists := by
  induction hs generalizing st with
  | nil => rfl
  | cons h rest ih => simpa [migrateHotelsPure, hotelWrites_lists] using ih (hotelWrites st h)

theorem migrateUsersPure_hashes_ne (us : List User) (st : Store) (q : String)
    (hq : ∀ a, q ≠ userKey a) : (migrateUsersPure us st).hashes q = st.hashes q := by
  induction us generalizing st with
  | nil => rfl
  | cons u rest ih =>
    rw [migrateUsersPure, ih, userWrites_hashes, if_neg (hq u.id)]

theorem migrateHotelsPure_hashes_ne (hs : List Hotel) (st : Store) (q : String)
    (hq : ∀ a, q ≠ hotelKey a) : (migrateHotelsPure hs st).hashes q = st.hashes q := by
  induction hs generalizing st with
  | nil => rfl
  | cons h rest ih =>
    rw [migrateHotelsPure, ih, hotelWrites_hashes, if_neg (hq h.id)]

theorem migrateBookingsPure_hashes_ne (bs : List Booking) (st : Store) (q : String)
    (hq : ∀ a, q ≠ bookingKey a) : (migrateBookingsPure bs st).hashes q = st.hashes q := by
  induction bs generalizing st with
  | nil => rfl
  | cons b rest ih =>
    rw [migrateBookingsPure, ih, bookingWrites_hashes, if_neg (hq b.id)]

theorem migrateUsersPure_hashes_notmem (us : List User) (st : Store) (uid : Nat)
    (h : uid ∉ us.map User.id) :
    (migrateUsersPure us st).hashes (userKey uid) = st.hashes (userKey uid) := by
  induction us generalizing st with
  | nil => rfl
  | cons u rest ih =>
    simp only [List.map_cons, List.mem_cons, not_or] at h
    rw [migrateUsersPure, ih _ h.2, userWrites_hashes,
      if_neg (fun he => h.1 (userKey_inj he))]

theorem migrateUsersPure_hashes_mem (us : List User) (st : Store) (u : User)
    (hmem : u ∈ us) (hnd : (us.map User.id).Nodup) :
    (migrateUsersPure us st).hashes (userKey u.id) =
      setFields (st.hashes (userKey u.id)) (userFields u) := by
  induction us generalizing st with
  | nil => cases hmem
  | cons v rest ih =>
    simp only [List.map_cons, List.nodup_cons] at hnd
    rcases List.mem_cons.mp hmem with he | hm
    · subst he
      rw [migrateUsersPure, migrateUsersPure_hashes_notmem rest _ u.id hnd.1,
        userWrites_hashes, if_pos rfl]
    · rw [migrateUsersPure, ih _ hm hnd.2, userWrites_hashes,
        if_neg (fun he => hnd.1 (by rw [← userKey_inj he]; exact List.mem_map_of_mem User.id hm))]

theorem migrateHotelsPure_hashes_notmem (hs : List Hotel) (st : Store) (hid : Nat)
    (h : hid ∉ hs.map Hotel.id) :
    (migrateHotelsPure hs st).hashes (hotelKey hid) = st.hashes (hotelKey hid) := by
  induction hs generalizing st with
  | nil => rfl
  | cons v rest ih =>
    simp only [List.map_cons, List.mem_cons, not_or] at h
    rw [migrateHotelsPure, ih _ h.2, hotelWrites_hashes,
      if_neg (fun he => h.1 (hotelKey_inj he))]

theorem migrateHotelsPure_hashes_mem (hs : List Hotel) (st : Store) (h : Hotel)
    (hmem : h ∈ hs) (hnd : (hs.map Hotel.id).Nodup) :
    (migrateHotelsPure hs st).hashes (hotelKey h.id) =
      setFields (st.hashes (hotelKey h.id)) (hotelFields h) := by
  induction hs generalizing st with
  | nil => cases hmem
  | cons v rest ih =>
    simp only [List.map_cons, List.nodup_cons] at hnd
    rcases List.mem_cons.mp hmem with he | hm
    · subst he
      rw [migrateHotelsPure, migrateHotelsPure_hashes_notmem rest _ h.id hnd.1,
        hotelWrites_hashes, if_pos rfl]
    · rw [migrateHotelsPure, ih _ hm hnd.2, hotelWrites_hashes,
        if_neg (fun he => hnd.1 (by rw [← hotelKey_inj he]; exact List.mem_map_of_mem Hotel.id hm))]

theorem migrateBookingsPure_hashes_notmem (bs : List Booking) (st : Store) (bid : Nat)
    (h : bid ∉ bs.map Booking.id) :
    (migrateBookingsPure bs st).hashes (bookingKey bid) = st.hashes (bookingKey bid) := by
  induction bs generalizing st with
  | nil => rfl
  | cons v rest ih =>
    simp only [List.map_cons, List.mem_cons, not_or] at h
    rw [migrateBookingsPure, ih _ h.2, bookingWrites_hashes,
      if_neg (fun he => h.1 (bookingKey_inj he))]

theorem migrateBookingsPure_hashes_mem (bs : List Booking) (st : Store) (b : Booking)
    (hmem : b ∈ bs) (hnd : (bs.map Booking.id).Nodup) :
    (migrateBookingsPure bs st).hashes (bookingKey b.id) =
      setFields (st.hashes (bookingKey b.id)) (bookingFields b) := by
  induction bs generalizing st with
  | nil => cases hmem
  | cons v rest ih =>
    simp only [List.map_cons, List.nodup_cons] at hnd
    rcases List.mem_cons.mp hmem with he | hm
    · subst he
      rw [migrateBookingsPure, migrateBookingsPure_hashes_notmem rest _ b.id hnd.1,
        bookingWrites_hashes, if_pos rfl]
    · rw [migrateBookingsPure, ih _ hm hnd.2, bookingWrites_hashes,
        if_neg (fun he => hnd.1 (by rw [← bookingKey_inj he]; exact List.mem_map_of_mem Booking.id hm))]

theorem migrateBookingsPure_lists (bs : List Booking) (st : Store) (uid : Nat) :
    (migrateBookingsPure bs st).lists (userBookingsKey uid) =
      ((bs.filter (fun b => b.user_id == uid)).reverse.map (fun b => natStr b.id)) ++
        st.lists (userBookingsKey uid) := by
  induction bs generalizing st with
  | nil => simp [migrateBookingsPure]
  | cons b rest ih =>
    rw [migrateBookingsPure, ih, bookingWrites_lists]
    by_cases hb : b.user_id = uid
    · rw [if_pos (by rw [hb]), hb]
      simp [List.filter_cons, hb, List.append_assoc]
    · rw [if_neg (fun he => hb (userBookingsKey_inj he).symm)]
      simp [List.filter_cons, hb]

end RedisMigration

namespace RedisMigration

theorem migrateUsers_none (us : List User) : ∀ (i c : Nat) (st : Store),
    migrateUsers none us i c st =
      some (migrateUsersPure us st, i + 3 * us.length, c + us.length) := by
  induction us with
  | nil => intro i c st; simp [migrateUsers, migrateUsersPure]
  | cons u rest ih =>
    intro i c st
    show migrateUsers none rest (i + 3) (c + 1) (userWrites st u) = _
    rw [ih, Option.some_inj, Prod.ext_iff, Prod.ext_iff]
    exact ⟨rfl, by simp only [List.length_cons]; omega, by simp only [List.length_cons]; omega⟩

theorem migrateHotels_none (hs : List Hotel) : ∀ (i c : Nat) (st : Store),
    migrateHotels none hs i c st =
      some (migrateHotelsPure hs st, i + 3 * hs.length, c + hs.length) := by
  induction hs with
  | nil => intro i c st; simp [migrateHotels, migrateHotelsPure]
  | cons h rest ih =>
    intro i c st
    show migrateHotels none rest (i + 3) (c + 1) (hotelWrites st h) = _
    rw [ih, Option.some_inj, Prod.ext_iff, Prod.ext_iff]
    exact ⟨rfl, by simp only [List.length_cons]; omega, by simp only [List.length_cons]; omega⟩

theorem migrateBookings_none (bs : List Booking) : ∀ (i c : Nat) (st : Store),
    migrateBookings none bs i c st =
      some (migrateBookingsPure bs st, i + 4 * bs.length, c + bs.length) := by
  induction bs with
  | nil => intro i c st; simp [migrateBookings, migrateBookingsPure]
  | cons b rest ih =>
    intro i c st
    show migrateBookings none rest (i + 4) (c + 1) (bookingWrites st b) = _
    rw [ih, Option.some_inj, Prod.ext_iff, Prod.ext_iff]
    exact ⟨rfl, by simp only [List.length_cons]; omega, by simp only [List.length_cons]; omega⟩

/-- With no injected failure, `migrate_data` succeeds, the three statistics
counters equal the snapshot's row counts, and the resulting store is the
pure three-phase transformation. -/
theorem migrate_data_none (st : Store) (d : MySQLData) :
    migrate_data none (some st) d =
      some (⟨d.users.length, d.hotels.length, d.bookings.length⟩, migratePure d st) := by
  simp [migrate_data, migrateUsers_none, migrateHotels_none, migrateBookings_none, migratePure]

theorem migrateUsers_fail (us : List User) : ∀ (i c : Nat) (st : Store) (n : Nat),
    i ≤ n → n < i + 3 * us.length → migrateUsers (some n) us i c st = none := by
  induction us with
  | nil => intro i c st n h1 h2; simp only [List.length_nil] at h2; omega
  | cons u rest ih =>
    intro i c st n h1 h2
    by_cases e1 : n = i
    · simp [migrateUsers, runCmd, e1]
    · by_cases e2 : n = i + 1
      · simp [migrateUsers, runCmd, e1, e2]
      · by_cases e3 : n = i + 2
        · simp [migrateUsers, runCmd, e1, e2, e3]
        · simp only [migrateUsers, runCmd, Option.some.injEq, e1, e2, e3, if_false,
            Option.bind_some]
          exact ih (i + 3) (c + 1) _ n (by omega) (by simp at h2 ⊢; omega)

theorem migrateHotels_fail (hs : List Hotel) : ∀ (i c : Nat) (st : Store) (n : Nat),
    i ≤ n → n < i + 3 * hs.length → migrateHotels (some n) hs i c st = none := by
  induction hs with
  | nil => intro i c st n h1 h2; simp only [List.length_nil] at h2; omega
  | cons h rest ih =>
    intro i c st n h1 h2
    by_cases e1 : n = i
    · simp [migrateHotels, runCmd, e1]
    · by_cases e2 : n = i + 1
      · simp [migrateHotels, runCmd, e1, e2]
      · by_cases e3 : n = i + 2
        · simp [migrateHotels, runCmd, e1, e2, e3]
        · simp only [migrateHotels, runCmd, Option.some.injEq, e1, e2, e3, if_false,
            Option.bind_some]
          exact ih (i + 3) (c + 1) _ n (by omega) (by simp at h2 ⊢; omega)

theorem migrateBookings_fail (bs : List Booking) : ∀ (i c : Nat) (st : Store) (n : Nat),
    i ≤ n → n < i + 4 * bs.length → migrateBookings (some n) bs i c st = none := by
  induction bs with
  | nil => intro i c st n h1 h2; simp only [List.length_nil] at h2; omega
  | cons b rest ih =>
    intro i c st n h1 h2
    by_cases e1 : n = i
    · simp [migrateBookings, runCmd, e1]
    · by_cases e2 : n = i + 1
      · simp [migrateBookings, runCmd, e1, e2]
      · by_cases e3 : n = i + 2
        · simp [migrateBookings, runCmd, e1, e2, e3]
        · by_cases e4 : n = i + 3
          · simp [migrateBookings, runCmd, e1, e2, e3, e4]
          · simp only [migrateBookings, runCmd, Option.some.injEq, e1, e2, e3, e4, if_false,
              Option.bind_some]
            exact ih (i + 4) (c + 1) _ n (by omega) (by simp at h2 ⊢; omega)

theorem migrateUsers_skip (us : List User) : ∀ (i c : Nat) (st : Store) (n : Nat),
    (n < i ∨ i + 3 * us.length ≤ n) →
    migrateUsers (some n) us i c st =
      some (migrateUsersPure us st, i + 3 * us.length, c + us.length) := by
  induction us with
  | nil => intro i c st n _; simp [migrateUsers, migrateUsersPure]
  | cons u rest ih =>
    intro i c st n h
    have hlen : i + 3 * (u :: rest).length = (i + 3) + 3 * rest.length := by
      simp; omega
    have e1 : ¬n = i := by simp at h ⊢; omega
    have e2 : ¬n = i + 1 := by simp at h ⊢; omega
    have e3 : ¬n = i + 2 := by simp at h ⊢; omega
    simp only [migrateUsers, runCmd, Option.some.injEq, e1, e2, e3, if_false,
      Option.some_bind, migrateUsersPure]
    rw [ih (i + 3) (c + 1) _ n (by simp at h ⊢; omega), Option.some_inj, Prod.ext_iff,
      Prod.ext_iff]
    exact ⟨rfl, by simp only [List.length_cons]; omega, by simp only [List.length_cons]; omega⟩

theorem migrateHotels_skip (hs : List Hotel) : ∀ (i c : Nat) (st : Store) (n : Nat),
    (n < i ∨ i + 3 * hs.length ≤ n) →
    migrateHotels (some n) hs i c st =
      some (migrateHotelsPure hs st, i + 3 * hs.length, c + hs.length) := by
  induction hs with
  | nil => intro i c st n _; simp [migrateHotels, migrateHotelsPure]
  | cons h rest ih =>
    intro i c st n hn
    have e1 : ¬n = i := by simp at hn ⊢; omega
    have e2 : ¬n = i + 1 := by simp at hn ⊢; omega
    have e3 : ¬n = i + 2 := by simp at hn ⊢; omega
    simp only [migrateHotels, runCmd, Option.some.injEq, e1, e2, e3, if_false,
      Option.some_bind, migrateHotelsPure]
    rw [ih (i + 3) (c + 1) _ n (by simp at hn ⊢; omega), Option.some_inj, Prod.ext_iff,
      Prod.ext_iff]
    exact ⟨rfl, by simp only [List.length_cons]; omega, by simp only [List.length_cons]; omega⟩

/-- With a failure injected at command `n` within the run's command range,
`migrate_data` propagates the exception and returns `none`. -/
theorem migrate_data_fail (st : Store) (d : MySQLData) (n : Nat)
    (h : n < totalCmds d) : migrate_data (some n) (some st) d = none := by
  unfold totalCmds at h
  by_cases h1 : n < 3 * d.users.length
  · rw [migrate_data, migrateUsers_fail d.users 0 0 st n (by omega) (by omega)]
    rfl
  · rw [migrate_data, migrateUsers_skip d.users 0 0 st n (by omega), Option.some_bind]
    by_cases h2 : n < 3 * d.users.length + 3 * d.hotels.length
    · rw [migrateHotels_fail d.hotels _ 0 _ n
        (by show 0 + 3 * d.users.length ≤ n; omega)
        (by show n < 0 + 3 * d.users.length + 3 * d.hotels.length; omega)]
      rfl
    · rw [migrateHotels_skip d.hotels _ 0 _ n
        (by show n < 0 + 3 * d.users.length ∨ 0 + 3 * d.users.length + 3 * d.hotels.length ≤ n
            omega), Option.some_bind]
      rw [migrateBookings_fail d.bookings _ 0 _ n
        (by show 0 + 3 * d.users.length + 3 * d.hotels.length ≤ n; omega)
        (by show n < 0 + 3 * d.users.length + 3 * d.hotels.length + 4 * d.bookings.length
            omega)]
      rfl

end RedisMigration

theorem setFields_userFields (u : User) :
    setFields [] (RedisMigration.userFields u) =
      [("id", natStr u.id), ("name", u.name), ("email", u.email),
       ("created_at", u.created_at)] := by
  simp [setFields, setField, RedisMigration.userFields]

theorem setFields_hotelFields (h : Hotel) :
    setFields [] (RedisMigration.hotelFields h) =
      [("id", natStr h.id), ("name", h.name), ("city", h.city),
       ("created_at", h.created_at)] := by
  simp [setFields, setField, RedisMigration.hotelFields]

theorem setFields_bookingFields (b : Booking) :
    setFields [] (RedisMigration.bookingFields b) =
      [("id", natStr b.id), ("user_id", natStr b.user_id), ("hotel_id", natStr b.hotel_id),
       ("date", b.date), ("created_at", b.created_at)] := by
  simp [setFields, setField, RedisMigration.bookingFields]

theorem historyLoop_eq (st : Store) (l : List String) :
    RedisQueries.historyLoop st l =
      (l.filter (fun bid => !(st.hashes ("booking:" ++ bid)).isEmpty)).map
        (fun bid => RedisQueries.combinedInfo st (st.hashes ("booking:" ++ bid))) := by
  induction l with
  | nil => rfl
  | cons bid rest ih =>
    by_cases hb : st.hashes ("booking:" ++ bid) = []
    · simp [RedisQueries.historyLoop, hb, List.filter_cons, ih]
    · simp [RedisQueries.historyLoop, hb, List.filter_cons, ih]

/-! ## Sample data for concrete instantiations -/

/-- A sample user row. -/
def sampleUser : User := ⟨1, "Alice", "a@x.com", "2024-01-01 10:00:00"⟩

/-- A sample hotel row. -/
def sampleHotel : Hotel := ⟨1, "Grand", "Paris", "2024-01-02 10:00:00"⟩

/-- A sample booking row owned by the sample user. -/
def sampleBooking : Booking := ⟨1, 1, 1, "2024-05-01", "2024-03-01 09:00:00"⟩

/-- A sample one-row-per-table snapshot. -/
def sampleData : MySQLData := ⟨[sampleUser], [sampleHotel], [sampleBooking]⟩

/-! ## Claim theorems -/

/-- C3: for every key string, `get_hash_slot` returns the CRC16-XMODEM
checksum of the key's UTF-8 bytes reduced modulo 16384, hence an integer in
`[0, 16384)`; it is a total function of the key with no error conditions. -/
theorem get_hash_slot_range_and_crc (key : String) :
    RedisMigration.get_hash_slot key < 16384 ∧
    RedisMigration.get_hash_slot key = crc16xmodem (utf8Bytes key) % 16384 :=
  ⟨Nat.mod_lt _ (by omega), rfl⟩

/-- C7: the slot computation used at write time (`RedisMigration`) and the
one used at read time (`RedisQueries`) agree on every key, and the node
resolved from either slot is the same; both are pure functions of the key. -/
theorem get_hash_slot_write_read_agree (key : String) :
    RedisMigration.get_hash_slot key = RedisQueries.get_hash_slot key ∧
    RedisMigration.get_cluster_node (RedisMigration.get_hash_slot key) =
      RedisMigration.get_cluster_node (RedisQueries.get_hash_slot key) :=
  ⟨rfl, rfl⟩

/-- C4: on the slot range `[0, 16384)`, `get_cluster_node` realises a
partition into the three contiguous ranges `[0, 5460]`, `[5461, 10922]` and
`[10923, 16383]` (sizes 5461, 5462, 5461): every slot gets exactly one of
the nodes 1, 2, 3, the ranges cover the whole slot space and do not
overlap. -/
theorem get_cluster_node_partition (s : Int) (h0 : 0 ≤ s) (h1 : s < 16384) :
    (RedisMigration.get_cluster_node s = 1 ∨ RedisMigration.get_cluster_node s = 2 ∨
      RedisMigration.get_cluster_node s = 3) ∧
    (RedisMigration.get_cluster_node s = 1 ↔ 0 ≤ s ∧ s ≤ 5460) ∧
    (RedisMigration.get_cluster_node s = 2 ↔ 5461 ≤ s ∧ s ≤ 10922) ∧
    (RedisMigration.get_cluster_node s = 3 ↔ 10923 ≤ s ∧ s ≤ 16383) := by
  unfold RedisMigration.get_cluster_node
  split_ifs <;> omega

/-- Witness for C4 at slot 0. -/
theorem get_cluster_node_partition_witness : RedisMigration.get_cluster_node 0 = 1 :=
  ((get_cluster_node_partition 0 (by omega) (by omega)).2.1).mpr (by omega)

/-- C8: `get_cluster_node` is total over all integers with no error branch:
it always answers 1, 2 or 3; every slot above 10922 (including 16384 and
larger) gets node 3, and every negative slot gets node 1. -/
theorem get_cluster_node_total (s : Int) :
    (RedisMigration.get_cluster_node s = 1 ∨ RedisMigration.get_cluster_node s = 2 ∨
      RedisMigration.get_cluster_node s = 3) ∧
    (10922 < s → RedisMigration.get_cluster_node s = 3) ∧
    (16384 ≤ s → RedisMigration.get_cluster_node s = 3) ∧
    (s < 0 → RedisMigration.get_cluster_node s = 1) := by
  unfold RedisMigration.get_cluster_node
  split_ifs <;> omega

/-- Witness for C8: out-of-range slot 20000 gets node 3, slot -7 node 1. -/
theorem get_cluster_node_total_witness :
    RedisMigration.get_cluster_node 20000 = 3 ∧ RedisMigration.get_cluster_node (-7) = 1 :=
  ⟨(get_cluster_node_total 20000).2.2.1 (by omega),
   (get_cluster_node_total (-7)).2.2.2 (by omega)⟩

/-- C6: `migrate_data` returns `none` (not a statistics summary) whenever
the destination connection is unavailable, and whenever any individual
write raises within the run; with no failure it returns the summary whose
per-entity counters equal the snapshot's row counts. -/
theorem migrate_data_contract (d : MySQLData) :
    (∀ failAt, RedisMigration.migrate_data failAt none d = none) ∧
    (∀ st, RedisMigration.migrate_data none (some st) d =
      some (⟨d.users.length, d.hotels.length, d.bookings.length⟩,
        RedisMigration.migratePure d st)) ∧
    (∀ st n, n < RedisMigration.totalCmds d →
      RedisMigration.migrate_data (some n) (some st) d = none) :=
  ⟨fun _ => rfl, fun st => RedisMigration.migrate_data_none st d,
   fun st n h => RedisMigration.migrate_data_fail st d n h⟩

/-- Witness for C6: a failure injected at the very first write of the
sample migration yields `none`. -/
theorem migrate_data_contract_witness :
    RedisMigration.migrate_data (some 0) (some Store.empty) sampleData = none :=
  (migrate_data_contract sampleData).2.2 Store.empty 0 (by decide)

/-- C1: after a successful migration into an empty destination store, every
source user's record `user:{id}` maps exactly the fields id, name, email,
created_at to the text-serialized values of the row (name and email
verbatim), with nothing omitted; analogously for every hotel record
`hotel:{id}` and every booking record `booking:{id}`.  Row identifiers are
assumed unique per table, as the source's primary keys guarantee. -/
theorem migrated_records_exact (d : MySQLData) (res : RedisMigration.MigrationStats × Store)
    (h : RedisMigration.migrate_data none (some Store.empty) d = some res)
    (hu : (d.users.map User.id).Nodup) (hh : (d.hotels.map Hotel.id).Nodup)
    (hb : (d.bookings.map Booking.id).Nodup) :
    (∀ u ∈ d.users, res.2.hashes (userKey u.id) =
      [("id", natStr u.id), ("name", u.name), ("email", u.email),
       ("created_at", u.created_at)]) ∧
    (∀ ho ∈ d.hotels, res.2.hashes (hotelKey ho.id) =
      [("id", natStr ho.id), ("name", ho.name), ("city", ho.city),
       ("created_at", ho.created_at)]) ∧
    (∀ b ∈ d.bookings, res.2.hashes (bookingKey b.id) =
      [("id", natStr b.id), ("user_id", natStr b.user_id), ("hotel_id", natStr b.hotel_id),
       ("date", b.date), ("created_at", b.created_at)]) := by
  rw [RedisMigration.migrate_data_none] at h
  have hres := Option.some_inj.mp h
  subst hres
  refine ⟨fun u hmem => ?_, fun ho hmem => ?_, fun b hmem => ?_⟩
  · show (RedisMigration.migratePure d Store.empty).hashes (userKey u.id) = _
    unfold RedisMigration.migratePure
    rw [RedisMigration.migrateBookingsPure_hashes_ne _ _ _
        (fun a => userKey_ne_bookingKey u.id a),
      RedisMigration.migrateHotelsPure_hashes_ne _ _ _
        (fun a => userKey_ne_hotelKey u.id a),
      RedisMigration.migrateUsersPure_hashes_mem d.users _ u hmem hu]
    exact setFields_userFields u
  · show (RedisMigration.migratePure d Store.empty).hashes (hotelKey ho.id) = _
    unfold RedisMigration.migratePure
    rw [RedisMigration.migrateBookingsPure_hashes_ne _ _ _
        (fun a => hotelKey_ne_bookingKey ho.id a),
      RedisMigration.migrateHotelsPure_hashes_mem d.hotels _ ho hmem hh,
      RedisMigration.migrateUsersPure_hashes_ne _ _ _
        (fun a => (userKey_ne_hotelKey a ho.id).symm)]
    exact setFields_hotelFields ho
  · show (RedisMigration.migratePure d Store.empty).hashes (bookingKey b.id) = _
    unfold RedisMigration.migratePure
    rw [RedisMigration.migrateBookingsPure_hashes_mem d.bookings _ b hmem hb,
      RedisMigration.migrateHotelsPure_hashes_ne _ _ _
        (fun a => (hotelKey_ne_bookingKey a b.id).symm),
      RedisMigration.migrateUsersPure_hashes_ne _ _ _
        (fun a => (userKey_ne_bookingKey a b.id).symm)]
    exact setFields_bookingFields b

/-- Witness for C1 on the sample snapshot: the migrated user record holds
exactly the four expected fields. -/
theorem migrated_records_exact_witness :
    (RedisMigration.migratePure sampleData Store.empty).hashes (userKey 1) =
      [("id", natStr 1), ("name", "Alice"), ("email", "a@x.com"),
       ("created_at", "2024-01-01 10:00:00")] :=
  (migrated_records_exact sampleData _
      (RedisMigration.migrate_data_none Store.empty sampleData)
      (by decide) (by decide) (by decide)).1
    sampleUser (List.mem_cons_self sampleUser [])

/-- C2: after a successful migration into an empty destination store, the
relationship list `user:{uid}:bookings` holds exactly the ids of the
snapshot's bookings owned by `uid`, in the reverse of the order the
migration pass processed them (each id is prepended with `LPUSH`); with
unique booking ids, every booking's id occurs in its owner's list exactly
once. -/
theorem migrated_user_bookings_list (d : MySQLData)
    (res : RedisMigration.MigrationStats × Store)
    (h : RedisMigration.migrate_data none (some Store.empty) d = some res)
    (hb : (d.bookings.map Booking.id).Nodup) :
    (∀ uid : Nat, res.2.lists (userBookingsKey uid) =
      (d.bookings.filter (fun b => b.user_id == uid)).reverse.map (fun b => natStr b.id)) ∧
    (∀ b ∈ d.bookings,
      (res.2.lists (userBookingsKey b.user_id)).count (natStr b.id) = 1) := by
  rw [RedisMigration.migrate_data_none] at h
  have hres := Option.some_inj.mp h
  subst hres
  have hlist : ∀ uid : Nat,
      (RedisMigration.migratePure d Store.empty).lists (userBookingsKey uid) =
        (d.bookings.filter (fun b => b.user_id == uid)).reverse.map (fun b => natStr b.id) := by
    intro uid
    unfold RedisMigration.migratePure
    rw [RedisMigration.migrateBookingsPure_lists, RedisMigration.migrateHotelsPure_lists,
      RedisMigration.migrateUsersPure_lists]
    simp [Store.empty]
  refine ⟨hlist, fun b hmem => ?_⟩
  show ((RedisMigration.migratePure d Store.empty).lists
      (userBookingsKey b.user_id)).count (natStr b.id) = 1
  rw [hlist b.user_id]
  have hmap : (d.bookings.filter (fun b2 => b2.user_id == b.user_id)).reverse.map
      (fun b2 => natStr b2.id) =
      ((d.bookings.filter (fun b2 => b2.user_id == b.user_id)).reverse.map Booking.id).map
        natStr := by
    rw [List.map_map]
    rfl
  rw [hmap, List.count_map_of_injective _ natStr natStr_injective b.id]
  have hsub : (d.bookings.filter (fun b2 => b2.user_id == b.user_id)).reverse.map Booking.id =
      ((d.bookings.filter (fun b2 => b2.user_id == b.user_id)).map Booking.id).reverse := by
    rw [List.map_reverse]
  rw [hsub, List.count_reverse]
  have hnd : ((d.bookings.filter (fun b2 => b2.user_id == b.user_id)).map Booking.id).Nodup :=
    hb.sublist ((List.filter_sublist d.bookings).map Booking.id)
  have hmem2 : b.id ∈ (d.bookings.filter (fun b2 => b2.user_id == b.user_id)).map Booking.id :=
    List.mem_map_of_mem Booking.id (List.mem_filter.mpr ⟨hmem, by simp⟩)
  exact List.count_eq_one_of_mem hnd hmem2

/-- Witness for C2 on the sample snapshot: user 1's relationship list is
exactly the one-element list of the sample booking's id. -/
theorem migrated_user_bookings_list_witness :
    (RedisMigration.migratePure sampleData Store.empty).lists (userBookingsKey 1) =
      [natStr 1] := by
  rw [(migrated_user_bookings_list sampleData _
      (RedisMigration.migrate_data_none Store.empty sampleData) (by decide)).1 1]
  decide

/-- C5 counterexample: for a user id absent from the store (here user 1 in
the empty store), `get_user_booking_history` returns the empty list itself,
not a not-found result distinct from the empty sequence; the miss is
reported only through a printed message. -/
theorem booking_history_missing_user_returns_empty :
    Store.empty.hashes (userKey 1) = [] ∧
    RedisQueries.get_user_booking_history (some Store.empty) 1 = [] :=
  ⟨rfl, rfl⟩

/-- C5 amended: `get_user_booking_history` returns the empty list both for
a user that exists with an empty relationship list and for a user whose
record is absent; the two cases produce the same return value and are
distinguished only by printed output. -/
theorem booking_history_empty_both_cases (st : Store) (uid : Nat) :
    (st.hashes (userKey uid) = [] →
      RedisQueries.get_user_booking_history (some st) uid = []) ∧
    (st.hashes (userKey uid) ≠ [] → st.lists (userBookingsKey uid) = [] →
      RedisQueries.get_user_booking_history (some st) uid = []) := by
  unfold RedisQueries.get_user_booking_history
  constructor
  · intro h
    simp [h]
  · intro h1 h2
    simp [h1, h2]

/-- Witness for the amended C5: the empty store's user 1 is absent and the
query returns the empty list. -/
theorem booking_history_empty_both_cases_witness :
    RedisQueries.get_user_booking_history (some Store.empty) 1 = [] :=
  (booking_history_empty_both_cases Store.empty 1).1 rfl

/-- A store for exercising the query layer: user 1 exists, their
relationship list names bookings "1" and "2", but only booking 1's record
exists ("2" dangles). -/
def sampleQueryStore : Store :=
  ((((Store.empty.hset (userKey 1) (RedisMigration.userFields sampleUser)).hset
      (bookingKey 1) (RedisMigration.bookingFields sampleBooking)).hset
      (hotelKey 1) (RedisMigration.hotelFields sampleHotel)).lpush
      (userBookingsKey 1) "2").lpush (userBookingsKey 1) "1"

/-- C9: for an existing user, a booking id listed in the relationship list
whose record is absent is silently skipped: the history is the in-order
image of exactly those listed ids whose booking hash exists, so its length
never exceeds the relationship list's length and a dangling entry produces
no error and no not-found result. -/
theorem booking_history_skips_dangling (st : Store) (uid : Nat)
    (h : st.hashes (userKey uid) ≠ []) :
    RedisQueries.get_user_booking_history (some st) uid =
      ((st.lists (userBookingsKey uid)).filter
          (fun bid => !(st.hashes ("booking:" ++ bid)).isEmpty)).map
        (fun bid => RedisQueries.combinedInfo st (st.hashes ("booking:" ++ bid))) ∧
    (RedisQueries.get_user_booking_history (some st) uid).length ≤
      (st.lists (userBookingsKey uid)).length := by
  have hmain : RedisQueries.get_user_booking_history (some st) uid =
      ((st.lists (userBookingsKey uid)).filter
          (fun bid => !(st.hashes ("booking:" ++ bid)).isEmpty)).map
        (fun bid => RedisQueries.combinedInfo st (st.hashes ("booking:" ++ bid))) := by
    show (if st.hashes (userKey uid) = [] then []
      else if st.lists (userBookingsKey uid) = [] then []
      else RedisQueries.historyLoop st (st.lists (userBookingsKey uid))) = _
    rw [if_neg h]
    by_cases hl : st.lists (userBookingsKey uid) = []
    · simp [hl]
    · rw [if_neg hl, historyLoop_eq]
  refine ⟨hmain, ?_⟩
  rw [hmain, List.length_map]
  exact List.length_filter_le _ _

/-- Witness for C9 on `sampleQueryStore`: the history is not longer than
the two-element relationship list (the dangling id "2" is skipped). -/
theorem booking_history_skips_dangling_witness :
    (RedisQueries.get_user_booking_history (some sampleQueryStore) 1).length ≤
      (sampleQueryStore.lists (userBookingsKey 1)).length :=
  (booking_history_skips_dangling sampleQueryStore 1 (by decide)).2

/-- C10: `get_user_by_email` returns `none` exactly when the email index
key is absent (given that stored index values are never the empty string,
as the migration writes only rendered integer ids); when the index key
exists but the referenced user record is absent, the function instead
returns the empty record mapping `some []` — a value different from the
`none` miss. -/
theorem get_user_by_email_miss_cases (st : Store) (email : String)
    (hnv : st.strings (emailKey email) ≠ some "") :
    (RedisQueries.get_user_by_email st email = none ↔
      st.strings (emailKey email) = none) ∧
    (∀ v, st.strings (emailKey email) = some v → st.hashes ("user:" ++ v) = [] →
      RedisQueries.get_user_by_email st email = some []) := by
  unfold RedisQueries.get_user_by_email
  constructor
  · cases hv : st.strings (emailKey email) with
    | none => simp
    | some v =>
      have hne : v ≠ "" := fun he => hnv (he ▸ hv)
      simp [hne]
  · intro v hv he
    rw [hv]
    have hne : v ≠ "" := fun h2 => hnv (h2 ▸ hv)
    simp [hne, he]

/-- A store holding only the email index entry for the sample user, with no
user record behind it. -/
def sampleEmailStore : Store := Store.empty.set (emailKey "a@x.com") "1"

/-- Witness for C10: the dangling email index resolves to the empty record
mapping, not to `none`. -/
theorem get_user_by_email_miss_cases_witness :
    RedisQueries.get_user_by_email sampleEmailStore "a@x.com" = some [] :=
  (get_user_by_email_miss_cases sampleEmailStore "a@x.com" (by decide)).2
    "1" (by decide) (by decide)
